import Mathlib

/-!
Verification of the DocumentIntelligenceDemo tax-PDF pipeline.

Shallow embedding of the two heuristic engines of the repository:
the page classification and grouping state machine of pdf_splitter.py
and the table structuring engine of ocr_json_builder.py.  Python
strings are modelled as Lean strings (operations defined on the
underlying character lists so that everything evaluates by kernel
reduction), Python exceptions as Option, and the external OCR and
layout collaborators as explicit inputs.
-/

/-! ## String helpers modelling Python primitives -/

/-- Python substring test: does pat occur inside hay (list form). -/
def char_list_has (pat : List Char) : List Char → Bool
  | [] => pat.isEmpty
  | c :: rest => pat.isPrefixOf (c :: rest) || char_list_has pat rest

/-- Python membership test pat in s. -/
def py_contains (s pat : String) : Bool :=
  char_list_has pat.data s.data

/-- The Python whitespace class for str.strip and regex backslash-s. -/
def is_py_space (c : Char) : Bool :=
  c = ' ' || c = '\t' || c = '\n' || c = '\r' || c = '\x0b' || c = '\x0c'

/-- Python str.strip: drop whitespace from both ends. -/
def py_strip (s : String) : String :=
  ⟨((s.data.dropWhile is_py_space).reverse.dropWhile is_py_space).reverse⟩

/-- Python str.lower (ASCII case fold suffices for the texts at hand). -/
def py_lower (s : String) : String :=
  ⟨s.data.map Char.toLower⟩

/-- Python str.replace of one character by the empty string. -/
def remove_char (s : String) (c : Char) : String :=
  ⟨s.data.filter (fun ch => ch ≠ c)⟩

/-- Python str.replace of one character by another character. -/
def swap_char (s : String) (a b : Char) : String :=
  ⟨s.data.map (fun ch => if ch = a then b else ch)⟩

/-! ## Decimal rendering of naturals, modelling the Python f-string
conversion of an int.  The fuel structure mirrors the standard
repeated-division algorithm and reduces in the kernel. -/

/-- Decimal digit accumulation: prepend the digits of n to ds. -/
def to_dec_core : Nat → Nat → List Char → List Char
  | 0, _, ds => ds
  | fuel + 1, n, ds =>
    if n / 10 = 0 then Nat.digitChar (n % 10) :: ds
    else to_dec_core fuel (n / 10) (Nat.digitChar (n % 10) :: ds)

/-- Python str of a natural number (decimal). -/
def py_str_nat (n : Nat) : String :=
  ⟨to_dec_core (n + 1) n []⟩

/-- Specification form of the decimal digit list of n (most significant
first), used only in proofs. -/
def decDigits (n : Nat) : List Nat :=
  if n < 10 then [n]
  else decDigits (n / 10) ++ [n % 10]
decreasing_by exact Nat.div_lt_self (by omega) (by omega)

theorem decDigits_lt (n : Nat) (h : n < 10) : decDigits n = [n] := by
  rw [decDigits]; simp [h]

theorem decDigits_ge (n : Nat) (h : ¬ n < 10) :
    decDigits n = decDigits (n / 10) ++ [n % 10] := by
  rw [decDigits]; simp [h]

theorem to_dec_core_eq : ∀ (fuel n : Nat) (ds : List Char), n < fuel →
    to_dec_core fuel n ds = (decDigits n).map Nat.digitChar ++ ds := by
  intro fuel
  induction fuel with
  | zero => intro n ds h; omega
  | succ fuel ih =>
    intro n ds h
    by_cases hn : n / 10 = 0
    · have hlt : n < 10 := by omega
      rw [to_dec_core, if_pos hn, decDigits_lt n hlt, Nat.mod_eq_of_lt hlt]
      simp
    · have hge : ¬ n < 10 := by omega
      have hfuel : n / 10 < fuel := by omega
      rw [to_dec_core, if_neg hn, ih (n / 10) _ hfuel, decDigits_ge n hge]
      simp

theorem val_decDigits (n : Nat) : ∀ a : Nat,
    (decDigits n).foldl (fun x d => x * 10 + d) a =
      a * 10 ^ (decDigits n).length + n := by
  induction n using Nat.strong_induction_on with
  | _ n ih =>
    intro a
    by_cases h : n < 10
    · rw [decDigits_lt n h]
      simp
    · rw [decDigits_ge n h, List.foldl_append, List.length_append]
      have hlt : n / 10 < n := Nat.div_lt_self (by omega) (by omega)
      rw [ih (n / 10) hlt a]
      simp only [List.foldl_cons, List.foldl_nil, List.length_cons,
        List.length_nil]
      have hpow : 10 ^ ((decDigits (n / 10)).length + (0 + 1)) =
          10 ^ (decDigits (n / 10)).length * 10 := by
        rw [Nat.zero_add, pow_succ]
      rw [hpow]
      have hdm : n / 10 * 10 + n % 10 = n := by omega
      calc (a * 10 ^ (decDigits (n / 10)).length + n / 10) * 10 + n % 10
          = a * (10 ^ (decDigits (n / 10)).length * 10) +
              (n / 10 * 10 + n % 10) := by ring
        _ = a * (10 ^ (decDigits (n / 10)).length * 10) + n := by rw [hdm]

theorem decDigits_inj {m n : Nat} (h : decDigits m = decDigits n) : m = n := by
  have hm := val_decDigits m 0
  have hn := val_decDigits n 0
  rw [h] at hm
  simp only [Nat.zero_mul, Nat.zero_add] at hm hn
  omega

theorem decDigits_lt_ten (n : Nat) : ∀ d ∈ decDigits n, d < 10 := by
  induction n using Nat.strong_induction_on with
  | _ n ih =>
    intro d hd
    by_cases h : n < 10
    · rw [decDigits_lt n h] at hd
      simp at hd; omega
    · rw [decDigits_ge n h] at hd
      rcases List.mem_append.mp hd with h1 | h2
      · exact ih (n / 10) (Nat.div_lt_self (by omega) (by omega)) d h1
      · simp at h2; omega

theorem digitChar_inj_lt : ∀ a, a < 10 → ∀ b, b < 10 →
    Nat.digitChar a = Nat.digitChar b → a = b := by decide

theorem map_digitChar_inj : ∀ (l1 l2 : List Nat),
    (∀ d ∈ l1, d < 10) → (∀ d ∈ l2, d < 10) →
    l1.map Nat.digitChar = l2.map Nat.digitChar → l1 = l2 := by
  intro l1
  induction l1 with
  | nil => intro l2 _ _ h; cases l2 <;> simp_all
  | cons a l1 ih =>
    intro l2 h1 h2 h
    cases l2 with
    | nil => simp_all
    | cons b l2 =>
      simp only [List.map_cons, List.cons.injEq] at h
      have ha : a < 10 := h1 a (by simp)
      have hb : b < 10 := h2 b (by simp)
      have hab : a = b := digitChar_inj_lt a ha b hb h.1
      have htl : l1 = l2 :=
        ih l2 (fun d hd => h1 d (by simp [hd])) (fun d hd => h2 d (by simp [hd])) h.2
      rw [hab, htl]

theorem py_str_nat_data (n : Nat) :
    (py_str_nat n).data = (decDigits n).map Nat.digitChar := by
  show to_dec_core (n + 1) n [] = _
  rw [to_dec_core_eq (n + 1) n [] (by omega)]
  simp

theorem py_str_nat_inj {m n : Nat} (h : py_str_nat m = py_str_nat n) :
    m = n := by
  have hd : (py_str_nat m).data = (py_str_nat n).data := by rw [h]
  rw [py_str_nat_data, py_str_nat_data] at hd
  exact decDigits_inj
    (map_digitChar_inj _ _ (decDigits_lt_ten m) (decDigits_lt_ten n) hd)

/-! ## pdf_splitter.py : TaxPdfSplitter -/

/-- One entry of the page_form_types list built by
detect_form_types_with_ocr. -/
structure PageRecord where
  page_num : Nat
  page_index : Nat
  form_type : String
  text_length : Nat
deriving DecidableEq

/-- One entry of the groups list built by group_pages_intelligently. -/
structure FormGroup where
  form_type : String
  pages : List Nat
  page_indices : List Nat
deriving DecidableEq

/-- One entry of the split_pdfs list built by create_split_pdfs. -/
structure SplitPdf where
  file_path : String
  form_type : String
  pages : List Nat
deriving DecidableEq

/-- TaxPdfSplitter.identify_form_type: priority cascade from lowered
page text and the zero-based page ordinal to a form-type label. -/
def identify_form_type (text_lower : String) (page_num : Nat) : String :=
  if py_contains text_lower "form 1040" ||
      (py_contains text_lower "1040" && py_contains text_lower "comparison") then
    "Federal"
  else if py_contains text_lower "north carolina" then
    (if py_contains text_lower "d-400" || py_contains text_lower "d 400" then
      "State - North Carolina (D-400)"
    else "State - North Carolina")
  else if py_contains text_lower "ohio" then
    (if py_contains text_lower "it-1040" || py_contains text_lower "it 1040" ||
        py_contains text_lower "it1040" then
      "State - Ohio (IT-1040)"
    else if py_contains text_lower "nonresident" then
      "State - Ohio (Nonresident)"
    else "State - Ohio")
  else if py_contains text_lower "california" then
    (if py_contains text_lower "540" then "State - California (540)"
    else "State - California")
  else if py_contains text_lower "new york" then
    (if py_contains text_lower "it-201" || py_contains text_lower "it 201" then
      "State - New York (IT-201)"
    else "State - New York")
  else if py_contains text_lower "texas" then "State - Texas"
  else if py_contains text_lower "florida" then "State - Florida"
  else if py_contains text_lower "pennsylvania" then "State - Pennsylvania"
  else if py_contains text_lower "new jersey" then "State - New Jersey"
  else if py_contains text_lower "illinois" then "State - Illinois"
  else if py_contains text_lower "massachusetts" then "State - Massachusetts"
  else if py_contains text_lower "state" &&
      (py_contains text_lower "income tax" || py_contains text_lower "return" ||
        py_contains text_lower "comparison") then
    "State - Unknown (Page " ++ py_str_nat (page_num + 1) ++ ")"
  else "Unknown"

/-- TaxPdfSplitter.should_group_with_previous. -/
def should_group_with_previous (previous_form current_form : String) : Bool :=
  if previous_form == current_form then true
  else if previous_form == "Federal" && current_form == "Unknown" then true
  else false

/-- The loop body of group_pages_intelligently once the first group has
been opened: cur is the current_group accumulator; a closed group is
emitted and a fresh one opened whenever the adjacency rule refuses the
next page. -/
def group_go (cur : FormGroup) : List PageRecord → List FormGroup
  | [] => [cur]
  | p :: ps =>
    if should_group_with_previous cur.form_type p.form_type then
      group_go { cur with
        pages := cur.pages ++ [p.page_num],
        page_indices := cur.page_indices ++ [p.page_index] } ps
    else
      let fresh : FormGroup :=
        { form_type := p.form_type, pages := [p.page_num],
          page_indices := [p.page_index] }
      cur :: group_go fresh ps

/-- TaxPdfSplitter.group_pages_intelligently. -/
def group_pages_intelligently : List PageRecord → List FormGroup
  | [] => []
  | p :: ps =>
    let first : FormGroup :=
      { form_type := p.form_type, pages := [p.page_num],
        page_indices := [p.page_index] }
    group_go first ps

/-- The per-page OCR outcomes feeding detect_form_types_with_ocr: for
each page in order, either its extracted text or the message of the
exception pytesseract or the image conversion raised at that page. -/
def detect_go : Nat → List (Except String String) → Option (List PageRecord)
  | _, [] => some []
  | _, Except.error _ :: _ => none
  | page_num, Except.ok text :: rest =>
    (detect_go (page_num + 1) rest).map fun recs =>
      { page_num := page_num + 1, page_index := page_num,
        form_type := identify_form_type (py_lower text) page_num,
        text_length := text.length } :: recs

/-- TaxPdfSplitter.detect_form_types_with_ocr: the whole pass runs
inside one try block, so any page failure discards all accumulated
records and returns the empty list. -/
def detect_form_types_with_ocr (ocr : List (Except String String)) :
    List PageRecord :=
  (detect_go 0 ocr).getD []

/-- The output file name built by create_split_pdfs for one group. -/
def form_file_name (counter : Nat) (form_type : String) : String :=
  py_str_nat counter ++ "_" ++
    (remove_char (remove_char (remove_char
      (swap_char form_type ' ' '_') '(') ')') '-') ++ ".pdf"

/-- TaxPdfSplitter.create_split_pdfs: the returned description of the
written files (the PDF byte writing itself is external). -/
def create_split_pdfs (output_dir : String) (groups : List FormGroup) :
    List SplitPdf :=
  groups.enum.map fun ig =>
    { file_path := output_dir ++ "/" ++ form_file_name (ig.1 + 1) ig.2.form_type,
      form_type := ig.2.form_type, pages := ig.2.pages }

/-- TaxPdfSplitter.split_pdf: classification pass, early return on an
empty record list, grouping, then file creation. -/
def split_pdf (output_dir : String) (ocr : List (Except String String)) :
    List SplitPdf :=
  let page_form_types := detect_form_types_with_ocr ocr
  if page_form_types = [] then []
  else create_split_pdfs output_dir (group_pages_intelligently page_form_types)

/-! ## Claims about the splitter -/

/-- Concatenation of the page lists of a group sequence, in order. -/
def pages_concat (gs : List FormGroup) : List Nat :=
  gs.foldr (fun g acc => g.pages ++ acc) []

theorem group_go_pages : ∀ (ps : List PageRecord) (cur : FormGroup),
    pages_concat (group_go cur ps) =
      cur.pages ++ ps.map PageRecord.page_num := by
  intro ps
  induction ps with
  | nil => intro cur; simp [group_go, pages_concat]
  | cons p ps ih =>
    intro cur
    rw [group_go]
    split
    · rw [ih]
      simp [List.append_assoc]
    · show pages_concat (cur :: group_go _ ps) = _
      rw [pages_concat, List.foldr_cons, ← pages_concat, ih]
      simp

theorem group_pages_concat (records : List PageRecord) :
    pages_concat (group_pages_intelligently records) =
      records.map PageRecord.page_num := by
  cases records with
  | nil => rfl
  | cons p ps =>
    rw [group_pages_intelligently, group_go_pages]
    simp

/-- Claim C1: for an ordered PageRecord sequence whose page numbers are
1..N, the grouping operation returns groups whose page lists, read
concatenated in group order, are exactly 1..N (each page once), and an
empty input yields an empty group sequence. -/
theorem grouping_partitions_pages (records : List PageRecord)
    (h : records.map PageRecord.page_num = List.range' 1 records.length) :
    pages_concat (group_pages_intelligently records) =
      List.range' 1 records.length
    ∧ group_pages_intelligently [] = [] :=
  ⟨by rw [group_pages_concat, h], rfl⟩

/-- Claim C1 witness at a concrete three-page input. -/
theorem grouping_partitions_pages_witness :
    pages_concat (group_pages_intelligently
      [⟨1, 0, "Federal", 5⟩, ⟨2, 1, "State - Ohio", 7⟩, ⟨3, 2, "Unknown", 0⟩]) =
      List.range' 1 ([⟨1, 0, "Federal", 5⟩, ⟨2, 1, "State - Ohio", 7⟩,
        ⟨3, 2, "Unknown", 0⟩] : List PageRecord).length
    ∧ group_pages_intelligently [] = [] :=
  grouping_partitions_pages
    [⟨1, 0, "Federal", 5⟩, ⟨2, 1, "State - Ohio", 7⟩, ⟨3, 2, "Unknown", 0⟩]
    (by decide)

/-- Claim C2: the adjacency rule accepts a page exactly when labels are
identical or the group is Federal and the page Unknown; hence the label
sequence Federal, Unknown, Federal yields one three-page group while
StateX, Unknown, StateX yields three singleton groups for every state
label distinct from Federal and Unknown. -/
theorem federal_continuation_grouping (s : String)
    (h1 : s ≠ "Federal") (h2 : s ≠ "Unknown") :
    (∀ prev cur, should_group_with_previous prev cur = true ↔
      (prev = cur ∨ (prev = "Federal" ∧ cur = "Unknown")))
    ∧ group_pages_intelligently
        [⟨1, 0, "Federal", 0⟩, ⟨2, 1, "Unknown", 0⟩, ⟨3, 2, "Federal", 0⟩] =
        [⟨"Federal", [1, 2, 3], [0, 1, 2]⟩]
    ∧ group_pages_intelligently
        [⟨1, 0, s, 0⟩, ⟨2, 1, "Unknown", 0⟩, ⟨3, 2, s, 0⟩] =
        [⟨s, [1], [0]⟩, ⟨"Unknown", [2], [1]⟩, ⟨s, [3], [2]⟩] := by
  refine ⟨?_, by decide, ?_⟩
  · intro prev cur
    simp only [should_group_with_previous]
    split
    · next hc => simp_all
    · next hc =>
      split
      · next hf => simp_all
      · next hf => simp_all
  · have e1 : (s == "Unknown") = false := beq_eq_false_iff_ne.mpr h2
    have e2 : (s == "Federal") = false := beq_eq_false_iff_ne.mpr h1
    have e3 : ("Unknown" == s) = false := beq_eq_false_iff_ne.mpr (Ne.symm h2)
    simp [group_pages_intelligently, group_go, should_group_with_previous,
      e1, e2, e3]

/-- Claim C2 witness: instantiated at the state label State - Ohio. -/
theorem federal_continuation_grouping_witness :
    group_pages_intelligently
      [⟨1, 0, "State - Ohio", 0⟩, ⟨2, 1, "Unknown", 0⟩, ⟨3, 2, "State - Ohio", 0⟩] =
      [⟨"State - Ohio", [1], [0]⟩, ⟨"Unknown", [2], [1]⟩,
        ⟨"State - Ohio", [3], [2]⟩] :=
  (federal_continuation_grouping "State - Ohio" (by decide) (by decide)).2.2

theorem detect_go_error : ∀ (ocr : List (Except String String)) (n : Nat),
    (∃ e, Except.error e ∈ ocr) → detect_go n ocr = none := by
  intro ocr
  induction ocr with
  | nil => intro n h; obtain ⟨e, he⟩ := h; simp at he
  | cons x rest ih =>
    intro n h
    cases x with
    | error e => rfl
    | ok text =>
      obtain ⟨e, he⟩ := h
      have hrest : Except.error e ∈ rest := by
        rcases List.mem_cons.mp he with h1 | h1
        · exact absurd h1 (by simp)
        · exact h1
      rw [detect_go, ih (n + 1) ⟨e, hrest⟩]
      rfl

/-- Claim C8: a failure at any page of the per-page OCR pass makes the
classification pass return no records and the splitting operation
return no split files at all; no partial split is ever produced. -/
theorem ocr_failure_aborts_split (ocr : List (Except String String))
    (h : ∃ e, Except.error e ∈ ocr) :
    detect_form_types_with_ocr ocr = []
    ∧ ∀ output_dir, split_pdf output_dir ocr = [] := by
  have hd := detect_go_error ocr 0 h
  constructor
  · rw [detect_form_types_with_ocr, hd]
    rfl
  · intro output_dir
    rw [split_pdf]
    simp [detect_form_types_with_ocr, hd]

/-- Claim C8 witness: a second-page OCR exception wipes out the whole
pass even though the first page succeeded. -/
theorem ocr_failure_aborts_split_witness :
    detect_form_types_with_ocr
      [Except.ok "form 1040 comparison", Except.error "ocr failed"] = []
    ∧ ∀ output_dir, split_pdf output_dir
        [Except.ok "form 1040 comparison", Except.error "ocr failed"] = [] :=
  ocr_failure_aborts_split _ ⟨"ocr failed", by simp⟩

/-- The federal rule of the Form Identifier fires. -/
def federal_rule_applies (t : String) : Bool :=
  py_contains t "form 1040" ||
    (py_contains t "1040" && py_contains t "comparison")

/-- Some state-specific rule of the Form Identifier fires. -/
def specific_state_rule_applies (t : String) : Bool :=
  py_contains t "north carolina" || py_contains t "ohio" ||
    py_contains t "california" || py_contains t "new york" ||
    py_contains t "texas" || py_contains t "florida" ||
    py_contains t "pennsylvania" || py_contains t "new jersey" ||
    py_contains t "illinois" || py_contains t "massachusetts"

/-- The guard of the generic state fallback rule. -/
def generic_state_condition (t : String) : Bool :=
  py_contains t "state" &&
    (py_contains t "income tax" || py_contains t "return" ||
      py_contains t "comparison")

/-- The page text falls through the cascade to the generic state
fallback rule. -/
def falls_to_generic_state (t : String) : Bool :=
  !federal_rule_applies t && !specific_state_rule_applies t &&
    generic_state_condition t

theorem identify_generic (t : String) (i : Nat)
    (h : falls_to_generic_state t = true) :
    identify_form_type t i =
      "State - Unknown (Page " ++ py_str_nat (i + 1) ++ ")" := by
  simp only [falls_to_generic_state, federal_rule_applies,
    specific_state_rule_applies, generic_state_condition, Bool.and_eq_true,
    Bool.not_eq_true', Bool.or_eq_false_iff] at h
  obtain ⟨⟨⟨hf1, hf2⟩, ⟨⟨⟨⟨⟨⟨⟨⟨⟨hnc, hoh⟩, hca⟩, hny⟩, htx⟩, hfl⟩, hpa⟩,
    hnj⟩, hil⟩, hma⟩⟩, hst, hkw⟩ := h
  simp only [identify_form_type, hf1, hf2, hnc, hoh, hca, hny, htx, hfl,
    hpa, hnj, hil, hma, hst, hkw]
  simp

/-- Claim C9: two distinct pages that both fall through to the generic
state fallback rule always receive distinct labels, because the label
embeds the decimal rendering of the 1-based page number. -/
theorem generic_fallback_label_injective (t1 t2 : String) (i j : Nat)
    (hij : i ≠ j)
    (h1 : falls_to_generic_state t1 = true)
    (h2 : falls_to_generic_state t2 = true) :
    identify_form_type t1 i ≠ identify_form_type t2 j := by
  rw [identify_generic t1 i h1, identify_generic t2 j h2]
  intro he
  have hd := congrArg String.data he
  simp only [String.data_append, List.append_assoc] at hd
  have hd2 := List.append_cancel_left hd
  have hd3 := List.append_cancel_right hd2
  have hsucc : i + 1 = j + 1 := py_str_nat_inj (String.ext hd3)
  exact hij (by omega)

/-- Claim C9 witness: pages one and two of two generic state texts. -/
theorem generic_fallback_label_injective_witness :
    identify_form_type "state income tax" 0 ≠
      identify_form_type "state tax return" 1 :=
  generic_fallback_label_injective "state income tax" "state tax return" 0 1
    (by decide) (by decide) (by decide)

/-! ## ocr_json_builder.py : OcrJsonBuilder -/

/-- One cell of a table returned by the layout service: row index,
column index, content (None modelled as Option.none). -/
structure TableCell where
  row_index : Nat
  column_index : Nat
  content : Option String
deriving DecidableEq

/-- One table returned by the layout service. -/
structure RawTable where
  row_count : Nat
  column_count : Nat
  cells : List TableCell
deriving DecidableEq

/-- One layout-service result for a split document: the page count and
the table list (result.pages or [] and result.tables or []). -/
structure LayoutResult where
  pages_len : Nat
  tables : List RawTable
deriving DecidableEq

/-- The dense row_count x column_count grid of empty strings. -/
def empty_grid (rows cols : Nat) : List (List String) :=
  List.replicate rows (List.replicate cols "")

/-- Write one cell into the grid; the Python assignment raises an
IndexError when the index is out of range, modelled as none. -/
def set_cell (grid : List (List String)) (r c : Nat) (v : String) :
    Option (List (List String)) :=
  match grid.get? r with
  | none => none
  | some row =>
    if c < row.length then some (grid.set r (row.set c v)) else none

/-- The grid construction shared by extract_metadata and
generate_hybrid_structure: start empty, then write every cell with its
stripped content. -/
def build_grid (t : RawTable) : Option (List (List String)) :=
  t.cells.foldlM
    (fun g cell =>
      set_cell g cell.row_index cell.column_index
        (py_strip (cell.content.getD "")))
    (empty_grid t.row_count t.column_count)

/-- Read grid slot r c, total because every use is in range. -/
def grid_at (grid : List (List String)) (r c : Nat) : String :=
  (grid.getD r []).getD c ""

/-- OcrJsonBuilder.detect_form_type, the scan of one row with early
exit. -/
def detect_row : List String → Option String
  | [] => none
  | cell :: rest =>
    let c := py_lower cell
    if py_contains c "1040" then some "Federal (1040)"
    else if py_contains c "ohio" then some "State - Ohio"
    else if py_contains c "north carolina" || py_contains c "d-400" then
      some "State - North Carolina"
    else if py_contains c "california" || py_contains c "540" then
      some "State - California"
    else detect_row rest

/-- OcrJsonBuilder.detect_form_type, the scan over rows 0 to 2 with
early exit. -/
def detect_rows : List (List String) → Option String
  | [] => none
  | row :: rest =>
    match detect_row row with
    | some s => some s
    | none => detect_rows rest

/-- OcrJsonBuilder.detect_form_type. -/
def detect_form_type (grid : List (List String)) : String :=
  (detect_rows (grid.take 3)).getD "Unknown"

/-- The numeric character class of infer_data_type: the cell matches
the regex search for a digit, dollar sign, comma, parenthesis, hyphen
or period. -/
def matches_numeric_class (s : String) : Bool :=
  s.data.any fun ch =>
    ch.isDigit || ch = '$' || ch = ',' || ch = '(' || ch = ')' ||
      ch = '-' || ch = '.'

/-- The loop body of infer_data_type: skip a row that is too short or
whose sampled cell is empty, otherwise bump the matching or the
non-matching counter. -/
def infer_step (col : Nat) (nt : Nat × Nat) (r : List String) : Nat × Nat :=
  if r.length ≤ col then nt
  else
    let cell := r.getD col ""
    if cell = "" then nt
    else if matches_numeric_class cell then (nt.1 + 1, nt.2)
    else (nt.1, nt.2 + 1)

/-- OcrJsonBuilder.infer_data_type: sample the rows of grid slice 1 to
5, count class-matching against non-matching non-empty cells of the
column, numeric exactly when the first count strictly exceeds the
second. -/
def infer_data_type (grid : List (List String)) (col : Nat) : String :=
  let counts := ((grid.drop 1).take 5).foldl (infer_step col) (0, 0)
  if counts.1 > counts.2 then "numeric" else "text"

/-- OcrJsonBuilder.clean_value. -/
def clean_value (value : String) (data_type : String) : String :=
  if value = "" then ""
  else if data_type = "numeric" then
    let v := py_strip (remove_char (remove_char (remove_char (remove_char
      value '$') ',') ' ') '|')
    if v.data.head? = some '(' && v.data.getLast? = some ')' then
      "-" ++ ⟨v.data.drop 1 |>.dropLast⟩
    else v
  else py_strip value

/-- The Python regex match of a line-item value against
caret (backslash-d plus) period backslash-s star (dot plus) dollar:
leading digit run, a literal period, greedy whitespace, then at least
one non-newline character reaching the end of the string (the dollar
anchor also accepts the position before one final newline).  Returns
the two capture groups. -/
def line_item_match (s : String) : Option (String × String) :=
  let cs := s.data
  let digits := cs.takeWhile Char.isDigit
  match digits, cs.dropWhile Char.isDigit with
  | [], _ => none
  | _, [] => none
  | _, c :: rest2 =>
    if c ≠ '.' then none
    else
      let core := match rest2.getLast? with
        | some ch => if ch = '\n' then rest2.dropLast else rest2
        | none => rest2
      let d := core.dropWhile is_py_space
      if d ≠ [] then
        if d.contains '\n' then none else some (⟨digits⟩, ⟨d⟩)
      else
        match core.getLast? with
        | some ch => if ch = '\n' then none else some (⟨digits⟩, ⟨[ch]⟩)
        | none => none

/-- A column record built by generate_hybrid_structure. -/
structure ColumnSpec where
  columnIndex : Nat
  columnId : String
  columnName : String
  dataType : String
deriving DecidableEq

/-- One field of a data row. -/
structure FieldValue where
  columnIndex : Nat
  columnId : String
  columnName : String
  value : String
  cleanedValue : String
deriving DecidableEq

/-- A line item extracted from a row. -/
structure LineItem where
  lineNumber : String
  description : String
deriving DecidableEq

/-- One data row; lineItem is the optional attribute. -/
structure RowRecord where
  rowIndex : Nat
  rowId : String
  fields : List FieldValue
  lineItem : Option LineItem
deriving DecidableEq

/-- One structured table of the output. -/
structure TableData where
  formType : String
  rowCount : Nat
  columnCount : Nat
  columns : List ColumnSpec
  data : List RowRecord
deriving DecidableEq

/-- OcrJsonBuilder.try_extract_line_item: first matching field of the
row, in column order. -/
def try_extract_line_item : List FieldValue → Option LineItem
  | [] => none
  | f :: fs =>
    match line_item_match f.value with
    | some m => some { lineNumber := m.1, description := m.2 }
    | none => try_extract_line_item fs

/-- The column definitions of one table (header row names with the
positional fallback, and the inferred data type). -/
def mk_columns (grid : List (List String)) (ncols : Nat) : List ColumnSpec :=
  (List.range ncols).map fun c =>
    { columnIndex := c, columnId := "col_" ++ py_str_nat c,
      columnName :=
        if grid_at grid 0 c = "" then "Column_" ++ py_str_nat c
        else grid_at grid 0 c,
      dataType := infer_data_type grid c }

/-- One data row of one table. -/
def mk_row (grid : List (List String)) (cols : List ColumnSpec)
    (r : Nat) : RowRecord :=
  let fields := cols.enum.map fun ic =>
    { columnIndex := ic.1, columnId := ic.2.columnId,
      columnName := ic.2.columnName, value := grid_at grid r ic.1,
      cleanedValue := clean_value (grid_at grid r ic.1) ic.2.dataType }
  { rowIndex := r, rowId := "row_" ++ py_str_nat r, fields := fields,
    lineItem := try_extract_line_item fields }

/-- The body of the per-table try block of generate_hybrid_structure:
none models the caught exception (an out-of-range cell while building
the grid, or reading header row 0 of a table whose row count is zero
while its column count is not). -/
def structure_table (form_type : String) (t : RawTable) : Option TableData :=
  match build_grid t with
  | none => none
  | some grid =>
    if t.row_count = 0 ∧ t.column_count ≠ 0 then none
    else
      let cols := mk_columns grid t.column_count
      some
        { formType := detect_form_type grid
          rowCount := t.row_count
          columnCount := t.column_count
          columns := cols
          data := (List.range' 1 (t.row_count - 1)).map (mk_row grid cols) }

/-- OcrJsonBuilder.generate_hybrid_structure: per-table try, a failed
table is skipped, successes are appended in order. -/
def generate_hybrid_structure (form_type : String) :
    List RawTable → List TableData
  | [] => []
  | t :: ts =>
    match structure_table form_type t with
    | some td => td :: generate_hybrid_structure form_type ts
    | none => generate_hybrid_structure form_type ts

/-- The shared metadata map, keys taxpayerName and taxpayerId. -/
structure Metadata where
  taxpayerName : Option String
  taxpayerId : Option String
deriving DecidableEq

/-- The leftmost regex search for three digits, hyphen, two digits,
hyphen, four digits: does the pattern start here. -/
def ssn_here : List Char → Option (List Char)
  | a :: b :: c :: h1 :: d :: e :: h2 :: f :: g :: i :: j :: _ =>
    if a.isDigit && b.isDigit && c.isDigit && h1 = '-' && d.isDigit &&
        e.isDigit && h2 = '-' && f.isDigit && g.isDigit && i.isDigit &&
        j.isDigit then
      some [a, b, c, h1, d, e, h2, f, g, i, j]
    else none
  | _ => none

def ssn_search_aux : List Char → Option (List Char)
  | [] => none
  | c :: rest =>
    match ssn_here (c :: rest) with
    | some m => some m
    | none => ssn_search_aux rest

/-- Python re.search of the SSN pattern: the leftmost match. -/
def ssn_search (s : String) : Option String :=
  (ssn_search_aux s.data).map fun m => ⟨m⟩

/-- The taxpayerName update of one metadata-scan cell: record the cell
when it contains an ampersand, is longer than ten characters and no
name is recorded yet. -/
def name_step (c : String) (md : Metadata) : Metadata :=
  if py_contains c "&" = true ∧ 10 < c.length ∧ md.taxpayerName = none
  then { md with taxpayerName := some c }
  else md

/-- The taxpayerId update of one metadata-scan cell: record the
leftmost SSN-shaped substring when the search succeeds and no id is
recorded yet. -/
def ssn_step (c : String) (md1 : Metadata) : Metadata :=
  match ssn_search c with
  | some m =>
    if md1.taxpayerId = none then { md1 with taxpayerId := some m }
    else md1
  | none => md1

/-- The body of the metadata scan for one cell of rows 0 to 2: skip
empty cells, then apply the name update followed by the id update. -/
def cell_step (md : Metadata) (c : String) : Metadata :=
  if c = "" then md
  else ssn_step c (name_step c md)

/-- The scan of one built grid by extract_metadata: rows 0 to 2, all
columns, row-major. -/
def extract_metadata_grid (md : Metadata) (grid : List (List String)) :
    Metadata :=
  (grid.take 3).foldl (fun m row => row.foldl cell_step m) md

/-- OcrJsonBuilder.extract_metadata over the tables of one layout
result; the grid construction is unguarded there, so a failing build
aborts the whole run (none). -/
def extract_metadata_tables (md : Metadata) :
    List RawTable → Option Metadata
  | [] => some md
  | t :: ts =>
    match build_grid t with
    | none => none
    | some grid => extract_metadata_tables (extract_metadata_grid md grid) ts

/-- The report being folded by process_split_pdfs. -/
structure Report where
  pageCount : Nat
  tableCount : Nat
  metadata : Metadata
  tables : List TableData
deriving DecidableEq

/-- The loop of OcrJsonBuilder.process_split_pdfs over the split
documents: each item is the form type of the pdf_info and the outcome
of run_azure_layout (none when the service call raised and the
document is skipped).  Counts are added before metadata extraction and
structuring, matching the statement order of the source. -/
def process_go (report : Report) :
    List (String × Option LayoutResult) → Option Report
  | [] => some report
  | (_, none) :: rest => process_go report rest
  | (form_type, some result) :: rest =>
    let report1 : Report :=
      { report with
          pageCount := report.pageCount + result.pages_len
          tableCount := report.tableCount + result.tables.length }
    match extract_metadata_tables report1.metadata result.tables with
    | none => none
    | some md =>
      process_go
        { report1 with
            metadata := md
            tables := report1.tables ++
              generate_hybrid_structure form_type result.tables } rest

/-- OcrJsonBuilder.process_split_pdfs starting from the empty report. -/
def process_split_pdfs (items : List (String × Option LayoutResult)) :
    Option Report :=
  process_go
    { pageCount := 0, tableCount := 0,
      metadata := { taxpayerName := none, taxpayerId := none }, tables := [] }
    items

/-! ## Claims about the table structurer -/

/-- The sample cells of a column: rows 1 through 5 of the grid, the
column slot where it exists, non-empty cells only. -/
def sampled_cells (grid : List (List String)) (col : Nat) : List String :=
  ((grid.drop 1).take 5).filterMap fun r =>
    if col < r.length ∧ r.getD col "" ≠ "" then some (r.getD col "")
    else none

theorem infer_counts (col : Nat) : ∀ (rows : List (List String)) (n t : Nat),
    rows.foldl (infer_step col) (n, t) =
    (n + (rows.filterMap fun r =>
        if col < r.length ∧ r.getD col "" ≠ "" then some (r.getD col "")
        else none).countP matches_numeric_class,
      t + (rows.filterMap fun r =>
        if col < r.length ∧ r.getD col "" ≠ "" then some (r.getD col "")
        else none).countP fun c => !matches_numeric_class c) := by
  intro rows
  induction rows with
  | nil => intro n t; simp
  | cons r rows ih =>
    intro n t
    rw [List.foldl_cons]
    by_cases hlen : r.length ≤ col
    · have hcond : ¬ (col < r.length ∧ r.getD col "" ≠ "") :=
        fun hx => absurd hx.1 (by omega)
      have hstep : infer_step col (n, t) r = (n, t) := by
        rw [infer_step, if_pos hlen]
      rw [hstep, ih n t,
        List.filterMap_cons_none (by rw [if_neg hcond])]
    · by_cases hc : r.getD col "" = ""
      · have hcond : ¬ (col < r.length ∧ r.getD col "" ≠ "") :=
          fun hx => hx.2 hc
        have hstep : infer_step col (n, t) r = (n, t) := by
          rw [infer_step, if_neg hlen]
          exact if_pos hc
        rw [hstep, ih n t,
          List.filterMap_cons_none (by rw [if_neg hcond])]
      · have hcond : col < r.length ∧ r.getD col "" ≠ "" := ⟨by omega, hc⟩
        rw [List.filterMap_cons_some (by rw [if_pos hcond])]
        by_cases hm : matches_numeric_class (r.getD col "") = true
        · have hstep : infer_step col (n, t) r = (n + 1, t) := by
            rw [infer_step, if_neg hlen]
            show (if r.getD col "" = "" then (n, t)
              else if matches_numeric_class (r.getD col "") = true
                then (n + 1, t) else (n, t + 1)) = (n + 1, t)
            rw [if_neg hc, if_pos hm]
          rw [hstep, ih (n + 1) t, List.countP_cons, List.countP_cons, hm]
          simp [Prod.ext_iff]
          omega
        · have hm2 : matches_numeric_class (r.getD col "") = false := by
            revert hm; cases matches_numeric_class (r.getD col "") <;> simp
          have hstep : infer_step col (n, t) r = (n, t + 1) := by
            rw [infer_step, if_neg hlen]
            show (if r.getD col "" = "" then (n, t)
              else if matches_numeric_class (r.getD col "") = true
                then (n + 1, t) else (n, t + 1)) = (n, t + 1)
            rw [if_neg hc, hm2]
            simp
          rw [hstep, ih n (t + 1), List.countP_cons, List.countP_cons, hm2]
          simp [Prod.ext_iff]
          omega

/-- Claim C4: column type inference samples rows 1 through 5, and
returns numeric exactly when the count of class-matching sample cells
strictly exceeds the count of non-matching ones; equal counts give
text. -/
theorem infer_type_counts (grid : List (List String)) (col : Nat) :
    (infer_data_type grid col = "numeric" ↔
      (sampled_cells grid col).countP matches_numeric_class >
        (sampled_cells grid col).countP fun c => !matches_numeric_class c)
    ∧ ((sampled_cells grid col).countP matches_numeric_class =
        ((sampled_cells grid col).countP fun c => !matches_numeric_class c) →
      infer_data_type grid col = "text") := by
  have key := infer_counts col ((grid.drop 1).take 5) 0 0
  simp only [Nat.zero_add] at key
  have hinfer : infer_data_type grid col =
      if (sampled_cells grid col).countP matches_numeric_class >
          (sampled_cells grid col).countP (fun c => !matches_numeric_class c)
      then "numeric" else "text" := by
    rw [infer_data_type, key]
    simp only [sampled_cells]
  rw [hinfer]
  constructor
  · by_cases hC : (sampled_cells grid col).countP matches_numeric_class >
        (sampled_cells grid col).countP fun c => !matches_numeric_class c
    · rw [if_pos hC]
      exact iff_of_true rfl hC
    · rw [if_neg hC]
      exact iff_of_false (by decide) hC
  · intro heq
    rw [if_neg (by omega)]

/-- Claim C4 witness: one text-like and one numeric-like sample give
equal counts, hence text. -/
theorem infer_type_counts_witness :
    infer_data_type [["h"], ["abc"], ["123"]] 0 = "text" :=
  (infer_type_counts [["h"], ["abc"], ["123"]] 0).2 (by decide)

/-- Claim C5: numeric cleaning strips dollar signs, commas, spaces and
pipes and renders a parenthesised value as a negated one; the three
quoted examples; text cleaning only strips surrounding whitespace. -/
theorem clean_value_spec :
    clean_value "$(1,234.50)" "numeric" = "-1234.50"
    ∧ clean_value "1,000" "numeric" = "1000"
    ∧ clean_value "" "numeric" = ""
    ∧ ∀ v, clean_value v "text" = py_strip v := by
  refine ⟨by decide, by decide, by decide, ?_⟩
  intro v
  by_cases hv : v = ""
  · subst hv; decide
  · rw [clean_value, if_neg hv,
      if_neg (by decide : ¬ ("text" : String) = "numeric")]

theorem try_extract_none : ∀ fs : List FieldValue,
    (∀ g ∈ fs, line_item_match g.value = none) →
    try_extract_line_item fs = none := by
  intro fs
  induction fs with
  | nil => intro _; rfl
  | cons g gs ih =>
    intro h
    rw [try_extract_line_item, h g (by simp)]
    exact ih fun x hx => h x (by simp [hx])

theorem try_extract_first : ∀ (fs1 : List FieldValue) (f : FieldValue)
    (fs2 : List FieldValue) (n d : String),
    (∀ g ∈ fs1, line_item_match g.value = none) →
    line_item_match f.value = some (n, d) →
    try_extract_line_item (fs1 ++ f :: fs2) =
      some { lineNumber := n, description := d } := by
  intro fs1
  induction fs1 with
  | nil =>
    intro f fs2 n d _ h2
    rw [List.nil_append, try_extract_line_item, h2]
  | cons g gs ih =>
    intro f fs2 n d h1 h2
    rw [List.cons_append, try_extract_line_item, h1 g (by simp)]
    exact ih f fs2 n d (fun x hx => h1 x (by simp [hx])) h2

/-- Claim C6: per row the extractor returns the line item of the first
field, in column order, whose raw value matches the digits-period
pattern; a row with no matching field gets no line item; the quoted
example; and every row built by the structurer carries exactly that
optional attribute. -/
theorem line_item_first_match (fs1 fs2 : List FieldValue) (f : FieldValue)
    (n d : String)
    (h1 : ∀ g ∈ fs1, line_item_match g.value = none)
    (h2 : line_item_match f.value = some (n, d)) :
    try_extract_line_item (fs1 ++ f :: fs2) =
      some { lineNumber := n, description := d }
    ∧ (∀ fs : List FieldValue, (∀ g ∈ fs, line_item_match g.value = none) →
        try_extract_line_item fs = none)
    ∧ line_item_match "12. Wages, salaries, tips" =
        some ("12", "Wages, salaries, tips")
    ∧ ∀ ft t td, structure_table ft t = some td →
        ∀ row ∈ td.data, row.lineItem = try_extract_line_item row.fields := by
  refine ⟨try_extract_first fs1 f fs2 n d h1 h2, try_extract_none,
    by decide, ?_⟩
  intro ft t td hst row hrow
  cases hbg : build_grid t with
  | none => rw [structure_table, hbg] at hst; exact absurd hst (by simp)
  | some grid =>
    simp only [structure_table, hbg] at hst
    by_cases hz : t.row_count = 0 ∧ t.column_count ≠ 0
    · rw [if_pos hz] at hst; exact absurd hst (by simp)
    · rw [if_neg hz, Option.some.injEq] at hst
      rw [← hst] at hrow
      obtain ⟨r, _, hr⟩ := List.mem_map.mp hrow
      rw [← hr]
      rfl

/-- Claim C6 witness at the quoted field value. -/
theorem line_item_first_match_witness :
    try_extract_line_item
      [⟨0, "col_0", "A", "12. Wages, salaries, tips", "12. Wages, salaries, tips"⟩] =
      some { lineNumber := "12", description := "Wages, salaries, tips" } :=
  (line_item_first_match [] []
    ⟨0, "col_0", "A", "12. Wages, salaries, tips", "12. Wages, salaries, tips"⟩
    "12" "Wages, salaries, tips" (by simp) (by decide)).1

theorem generate_append (ft : String) : ∀ ts1 ts2 : List RawTable,
    generate_hybrid_structure ft (ts1 ++ ts2) =
      generate_hybrid_structure ft ts1 ++ generate_hybrid_structure ft ts2 := by
  intro ts1 ts2
  induction ts1 with
  | nil => rfl
  | cons t ts ih =>
    rw [List.cons_append, generate_hybrid_structure,
      generate_hybrid_structure]
    cases structure_table ft t <;> simp [ih]

theorem generate_mem (ft : String) : ∀ (ts : List RawTable) (t : RawTable)
    (td : TableData), t ∈ ts → structure_table ft t = some td →
    td ∈ generate_hybrid_structure ft ts := by
  intro ts
  induction ts with
  | nil => intro t td h _; simp at h
  | cons u us ih =>
    intro t td hmem hst
    rw [generate_hybrid_structure]
    rcases List.mem_cons.mp hmem with h1 | h1
    · rw [← h1, hst]; simp
    · cases structure_table ft u <;> simp [ih t td h1 hst]

/-- Claim C7: when structuring one table fails, that table is omitted,
the surrounding tables of the same document are processed exactly as
without it, and every successfully structured sibling appears in the
output. -/
theorem table_failure_isolated (ft : String) (t : RawTable)
    (ts1 ts2 : List RawTable) (h : structure_table ft t = none) :
    generate_hybrid_structure ft (ts1 ++ t :: ts2) =
      generate_hybrid_structure ft ts1 ++ generate_hybrid_structure ft ts2
    ∧ ∀ u ∈ ts1 ++ ts2, ∀ td, structure_table ft u = some td →
        td ∈ generate_hybrid_structure ft (ts1 ++ t :: ts2) := by
  have heq : generate_hybrid_structure ft (ts1 ++ t :: ts2) =
      generate_hybrid_structure ft ts1 ++ generate_hybrid_structure ft ts2 := by
    rw [generate_append, generate_hybrid_structure, h]
  refine ⟨heq, ?_⟩
  intro u hu td htd
  rw [heq]
  rcases List.mem_append.mp hu with h1 | h1
  · exact List.mem_append.mpr (Or.inl (generate_mem ft ts1 u td h1 htd))
  · exact List.mem_append.mpr (Or.inr (generate_mem ft ts2 u td h1 htd))

/-- Claim C7 witness: a zero-row two-column table fails structuring
between two one-cell tables that both survive. -/
theorem table_failure_isolated_witness :
    generate_hybrid_structure "F"
      ([⟨1, 1, [⟨0, 0, some "x"⟩]⟩] ++ (⟨0, 2, []⟩ : RawTable) ::
        [⟨1, 1, [⟨0, 0, some "y"⟩]⟩]) =
      generate_hybrid_structure "F" [⟨1, 1, [⟨0, 0, some "x"⟩]⟩] ++
        generate_hybrid_structure "F" [⟨1, 1, [⟨0, 0, some "y"⟩]⟩] :=
  (table_failure_isolated "F" ⟨0, 2, []⟩ [⟨1, 1, [⟨0, 0, some "x"⟩]⟩]
    [⟨1, 1, [⟨0, 0, some "y"⟩]⟩] (by decide)).1

/-! ## Claims about metadata extraction and the report -/

/-- The taxpayerName trigger of the metadata scan, as a predicate on
one cell. -/
def name_hit (c : String) : Bool :=
  py_contains c "&" && decide (10 < c.length)

theorem name_step_name (c : String) (md : Metadata) :
    (name_step c md).taxpayerName =
      match md.taxpayerName with
      | some v => some v
      | none => if name_hit c then some c else none := by
  by_cases hcond : py_contains c "&" = true ∧ 10 < c.length ∧
      md.taxpayerName = none
  · rw [name_step, if_pos hcond, hcond.2.2]
    have hnh : name_hit c = true := by
      rw [name_hit, hcond.1]
      simp [hcond.2.1]
    simp [hnh]
  · rw [name_step, if_neg hcond]
    cases hmd : md.taxpayerName with
    | some v => simp
    | none =>
      have hnab : ¬ (py_contains c "&" = true ∧ 10 < c.length) :=
        fun hx => hcond ⟨hx.1, hx.2, hmd⟩
      have hnh : name_hit c = false := by
        cases hb : name_hit c
        · rfl
        · exfalso
          rw [name_hit, Bool.and_eq_true, decide_eq_true_eq] at hb
          exact hnab hb
      simp [hnh]

theorem name_step_id (c : String) (md : Metadata) :
    (name_step c md).taxpayerId = md.taxpayerId := by
  rw [name_step]
  by_cases hcond : py_contains c "&" = true ∧ 10 < c.length ∧
      md.taxpayerName = none
  · rw [if_pos hcond]
  · rw [if_neg hcond]

theorem ssn_step_name (c : String) (md1 : Metadata) :
    (ssn_step c md1).taxpayerName = md1.taxpayerName := by
  cases hs : ssn_search c with
  | none => simp [ssn_step, hs]
  | some m =>
    simp only [ssn_step, hs]
    by_cases hid : md1.taxpayerId = none
    · rw [if_pos hid]
    · rw [if_neg hid]

theorem ssn_step_id (c : String) (md1 : Metadata) :
    (ssn_step c md1).taxpayerId =
      match md1.taxpayerId with
      | some v => some v
      | none => ssn_search c := by
  cases hs : ssn_search c with
  | none =>
    simp only [ssn_step, hs]
    cases hid : md1.taxpayerId <;> simp [hid]
  | some m =>
    simp only [ssn_step, hs]
    by_cases hid : md1.taxpayerId = none
    · rw [if_pos hid, hid]
    · rw [if_neg hid]
      cases hid2 : md1.taxpayerId <;> simp_all

theorem cell_step_name (md : Metadata) (c : String) :
    (cell_step md c).taxpayerName =
      match md.taxpayerName with
      | some v => some v
      | none => if name_hit c then some c else none := by
  by_cases hc : c = ""
  · subst hc
    rw [cell_step, if_pos rfl]
    have hnh : name_hit "" = false := by decide
    cases hmd : md.taxpayerName <;> simp [hnh]
  · rw [cell_step, if_neg hc, ssn_step_name, name_step_name]

theorem cell_step_id (md : Metadata) (c : String) :
    (cell_step md c).taxpayerId =
      match md.taxpayerId with
      | some v => some v
      | none => ssn_search c := by
  by_cases hc : c = ""
  · subst hc
    rw [cell_step, if_pos rfl]
    have hss : ssn_search "" = none := rfl
    cases hmd : md.taxpayerId <;> simp [hss]
  · rw [cell_step, if_neg hc, ssn_step_id, name_step_id]

theorem foldl_cell_name : ∀ (cells : List String) (md : Metadata),
    (cells.foldl cell_step md).taxpayerName =
      match md.taxpayerName with
      | some v => some v
      | none => cells.find? name_hit := by
  intro cells
  induction cells with
  | nil => intro md; cases hmd : md.taxpayerName <;> simp [hmd]
  | cons c cs ih =>
    intro md
    rw [List.foldl_cons, ih, cell_step_name]
    cases hmd : md.taxpayerName with
    | some v => simp
    | none =>
      by_cases hnh : name_hit c = true
      · rw [if_pos hnh, List.find?_cons_of_pos cs hnh]
      · rw [if_neg hnh,
          List.find?_cons_of_neg cs (by simp_all)]

theorem foldl_cell_id : ∀ (cells : List String) (md : Metadata),
    (cells.foldl cell_step md).taxpayerId =
      match md.taxpayerId with
      | some v => some v
      | none => cells.findSome? ssn_search := by
  intro cells
  induction cells with
  | nil => intro md; cases hmd : md.taxpayerId <;> simp [hmd]
  | cons c cs ih =>
    intro md
    rw [List.foldl_cons, ih, cell_step_id, List.findSome?_cons]
    cases hmd : md.taxpayerId with
    | some v => simp
    | none => cases hs : ssn_search c <;> simp

theorem extract_grid_cells (md : Metadata) (grid : List (List String)) :
    extract_metadata_grid md grid =
      ((grid.take 3).flatten).foldl cell_step md := by
  rw [extract_metadata_grid]
  exact (List.foldl_flatten _ _ _).symm

/-- The cells of one grid in metadata scan order. -/
def grid_scan_cells (grid : List (List String)) : List String :=
  (grid.take 3).flatten

/-- The cells of the tables of one document in metadata scan order;
none when some grid fails to build. -/
def tables_scan_cells : List RawTable → Option (List String)
  | [] => some []
  | t :: ts =>
    match build_grid t with
    | none => none
    | some g => (tables_scan_cells ts).map fun cs => grid_scan_cells g ++ cs

/-- All scanned cells of a run, in document order; skipped documents
contribute nothing. -/
def run_scan_cells : List (String × Option LayoutResult) → Option (List String)
  | [] => some []
  | (_, none) :: rest => run_scan_cells rest
  | (_, some result) :: rest =>
    match tables_scan_cells result.tables with
    | none => none
    | some cs => (run_scan_cells rest).map fun cs2 => cs ++ cs2

theorem extract_tables_eq : ∀ (ts : List RawTable) (md : Metadata)
    (cs : List String), tables_scan_cells ts = some cs →
    extract_metadata_tables md ts = some (cs.foldl cell_step md) := by
  intro ts
  induction ts with
  | nil =>
    intro md cs h
    simp only [tables_scan_cells, Option.some.injEq] at h
    subst h
    rfl
  | cons t ts ih =>
    intro md cs h
    cases hbg : build_grid t with
    | none =>
      simp only [tables_scan_cells, hbg] at h
      exact absurd h (by simp)
    | some g =>
      simp only [tables_scan_cells, hbg, Option.map_eq_some'] at h
      obtain ⟨cs2, hcs2, hcseq⟩ := h
      simp only [extract_metadata_tables, hbg]
      rw [ih _ cs2 hcs2, ← hcseq, List.foldl_append, extract_grid_cells]
      rfl

theorem process_metadata : ∀ (items : List (String × Option LayoutResult))
    (r : Report) (cells : List String) (report : Report),
    run_scan_cells items = some cells →
    process_go r items = some report →
    report.metadata = cells.foldl cell_step r.metadata := by
  intro items
  induction items with
  | nil =>
    intro r cells report h1 h2
    simp only [run_scan_cells, Option.some.injEq] at h1
    simp only [process_go, Option.some.injEq] at h2
    rw [← h1, ← h2]
    rfl
  | cons item rest ih =>
    intro r cells report h1 h2
    obtain ⟨ft, res⟩ := item
    cases res with
    | none =>
      simp only [run_scan_cells] at h1
      simp only [process_go] at h2
      exact ih r cells report h1 h2
    | some result =>
      cases hts : tables_scan_cells result.tables with
      | none =>
        simp only [run_scan_cells, hts] at h1
        exact absurd h1 (by simp)
      | some cs1 =>
        simp only [run_scan_cells, hts, Option.map_eq_some'] at h1
        obtain ⟨cs2, hcs2, hcseq⟩ := h1
        have hext := extract_tables_eq result.tables r.metadata cs1 hts
        simp only [process_go, hext] at h2
        have hrec := ih _ cs2 report hcs2 h2
        rw [hrec, ← hcseq, List.foldl_append]

/-- Claim C3: across a whole run the recorded taxpayerName is the
first cell, in document-table-row-column scan order over rows 0 to 2
of every grid, that contains an ampersand and exceeds ten characters;
the recorded taxpayerId is the first successful SSN-pattern search in
that order; and a key already set is never changed by any later
cell. -/
theorem metadata_first_match (items : List (String × Option LayoutResult))
    (report : Report) (cells : List String)
    (h1 : process_split_pdfs items = some report)
    (h2 : run_scan_cells items = some cells) :
    report.metadata.taxpayerName = cells.find? name_hit
    ∧ report.metadata.taxpayerId = cells.findSome? ssn_search
    ∧ (∀ (md : Metadata) (cs : List String) (v : String),
        md.taxpayerName = some v →
        (cs.foldl cell_step md).taxpayerName = some v)
    ∧ (∀ (md : Metadata) (cs : List String) (v : String),
        md.taxpayerId = some v →
        (cs.foldl cell_step md).taxpayerId = some v) := by
  have hm := process_metadata items
    { pageCount := 0, tableCount := 0,
      metadata := { taxpayerName := none, taxpayerId := none },
      tables := [] } cells report h2 h1
  refine ⟨?_, ?_, ?_, ?_⟩
  · rw [hm, foldl_cell_name]
  · rw [hm, foldl_cell_id]
  · intro md cs v hv
    rw [foldl_cell_name, hv]
  · intro md cs v hv
    rw [foldl_cell_id, hv]

/-- Claim C3 witness: the name and the id both come from the first
document; the SSN of the second document is ignored. -/
theorem metadata_first_match_witness :
    ((process_split_pdfs
      [("A", some ⟨1, [⟨1, 2, [⟨0, 0, some "John & Jane Doe Trust"⟩,
        ⟨0, 1, some "123-45-6789"⟩]⟩]⟩),
       ("B", some ⟨1, [⟨1, 1, [⟨0, 0, some "987-65-4321"⟩]⟩]⟩)]).getD
        ⟨0, 0, ⟨none, none⟩, []⟩).metadata.taxpayerName =
      ((run_scan_cells
        [("A", some ⟨1, [⟨1, 2, [⟨0, 0, some "John & Jane Doe Trust"⟩,
          ⟨0, 1, some "123-45-6789"⟩]⟩]⟩),
         ("B", some ⟨1, [⟨1, 1, [⟨0, 0, some "987-65-4321"⟩]⟩]⟩)]).getD
          []).find? name_hit :=
  (metadata_first_match
    [("A", some ⟨1, [⟨1, 2, [⟨0, 0, some "John & Jane Doe Trust"⟩,
      ⟨0, 1, some "123-45-6789"⟩]⟩]⟩),
     ("B", some ⟨1, [⟨1, 1, [⟨0, 0, some "987-65-4321"⟩]⟩]⟩)] _ _
    (by decide) (by decide)).1

theorem generate_length_le (ft : String) : ∀ ts : List RawTable,
    (generate_hybrid_structure ft ts).length ≤ ts.length := by
  intro ts
  induction ts with
  | nil => simp [generate_hybrid_structure]
  | cons t ts ih =>
    rw [generate_hybrid_structure]
    cases structure_table ft t <;> simp <;> omega

theorem process_go_count : ∀ (items : List (String × Option LayoutResult))
    (r report : Report), process_go r items = some report →
    r.tables.length ≤ r.tableCount →
    report.tables.length ≤ report.tableCount := by
  intro items
  induction items with
  | nil =>
    intro r report h hle
    simp only [process_go, Option.some.injEq] at h
    rw [← h]
    exact hle
  | cons item rest ih =>
    intro r report h hle
    obtain ⟨ft, res⟩ := item
    cases res with
    | none =>
      simp only [process_go] at h
      exact ih r report h hle
    | some result =>
      cases hext : extract_metadata_tables r.metadata result.tables with
      | none =>
        simp only [process_go, hext] at h
        exact absurd h (by simp)
      | some md =>
        simp only [process_go, hext] at h
        refine ih _ report h ?_
        show (r.tables ++ generate_hybrid_structure ft result.tables).length ≤
          r.tableCount + result.tables.length
        rw [List.length_append]
        have hg := generate_length_le ft result.tables
        omega

/-- Claim C10: in every completed run the reported tableCount bounds
the number of emitted table records from above, because the count is
incremented by the layout table count of each document before
structuring and structuring can only drop tables. -/
theorem table_count_dominates (items : List (String × Option LayoutResult))
    (report : Report) (h : process_split_pdfs items = some report) :
    report.tables.length ≤ report.tableCount :=
  process_go_count items _ report h (by simp)

/-- Claim C10 witness: a document whose first table fails structuring
still counts both tables, so the bound is strict there. -/
theorem table_count_dominates_witness :
    ((process_split_pdfs
      [("F", some ⟨1, [⟨0, 2, []⟩, ⟨1, 1, [⟨0, 0, some "x"⟩]⟩]⟩)]).getD
        ⟨0, 0, ⟨none, none⟩, []⟩).tables.length ≤
      ((process_split_pdfs
        [("F", some ⟨1, [⟨0, 2, []⟩, ⟨1, 1, [⟨0, 0, some "x"⟩]⟩]⟩)]).getD
          ⟨0, 0, ⟨none, none⟩, []⟩).tableCount :=
  table_count_dominates
    [("F", some ⟨1, [⟨0, 2, []⟩, ⟨1, 1, [⟨0, 0, some "x"⟩]⟩]⟩)] _ (by decide)
